import Mathlib

/-!
Verification of the streaming research-chat component and the signals table
of the `backtestbaby` frontend.

The development shallowly embeds the logic of three source files:
  * `src/frontend/components/research-chat.tsx` — line-delimited JSON stream
    decoding (`streamChat` / `processLine`), the per-message typing animation
    (`appendAnimatedChunk` / `finalizeStreamController`), and the send handler
    (`handleSendMessage`);
  * `src/frontend/components/signals-table.tsx` — lifecycle transition
    handlers (`handlePause` / `handleResume` / `handleStop`) and deletion with
    a cascaded conversation delete (`handleConfirmDelete`);
  * `src/frontend/components/signal-event-detail.tsx` — the CSV export
    (`downloadCSV`).

JavaScript builtins used by that code (string `split`, `trim`, `slice`,
`JSON.parse`) are modelled explicitly below on `List Char`, so every
definition is executable and kernel-reducible.
-/

namespace Backtestbaby

/-! ## Models of the JavaScript string builtins used by the source -/

/-- Characters treated as whitespace by JavaScript `String.prototype.trim`
(restricted to the ASCII whitespace that can occur in this wire format). -/
def jsWhitespaceChar (c : Char) : Bool :=
  [' ', '\t', '\n', '\r', '\x0c', '\x0b'].contains c

/-- Model of JavaScript `String.prototype.trim`: drop whitespace from both
ends. -/
def jsTrim (s : String) : String :=
  String.mk (((s.data.dropWhile jsWhitespaceChar).reverse.dropWhile jsWhitespaceChar).reverse)

/-- Model of JavaScript `"...".split("\n")` on the underlying character list:
the separator is consumed and the list of (possibly empty) segments between
newlines is returned.  `splitNewlineL [] = [[]]`, matching JS
`"".split("\n") = [""]`. -/
def splitNewlineL : List Char → List (List Char)
  | [] => [[]]
  | c :: rest =>
    if c = '\n' then [] :: splitNewlineL rest
    else
      match splitNewlineL rest with
      | [] => [[c]]
      | l :: ls => (c :: l) :: ls

/-- Model of JavaScript `String.prototype.split` with separator `"\n"`. -/
def jsSplitNewline (s : String) : List String :=
  (splitNewlineL s.data).map String.mk

/-- Model of JavaScript `s.slice(0, n)` (char-by-char prefix). -/
def jsSliceTo (s : String) (n : Nat) : String :=
  String.mk (s.data.take n)

/-- Model of JavaScript `s.slice(n)` (drop the first `n` chars). -/
def jsSliceFrom (s : String) (n : Nat) : String :=
  String.mk (s.data.drop n)

/-! ## Model of `JSON.parse`

A total, executable recursive-descent parser for JSON values, sufficient to
be faithful on the newline-delimited event lines consumed by `streamChat`.
Numeric literals are kept as raw text (the component never reads a numeric
payload), and `\u` escapes are decoded from four hex digits. -/

/-- Parsed JSON values.  Object fields are kept in source order; lookups take
the last binding of a key, matching `JSON.parse` duplicate-key semantics. -/
inductive JsValue where
  | str (s : String)
  | num (raw : String)
  | bool (b : Bool)
  | null
  | arr (elems : List JsValue)
  | obj (fields : List (String × JsValue))

/-- JSON insignificant whitespace. -/
def jsonWs (c : Char) : Bool :=
  [' ', '\t', '\n', '\r'].contains c

/-- Skip insignificant whitespace. -/
def skipWs (cs : List Char) : List Char :=
  cs.dropWhile jsonWs

/-- Hexadecimal digit value, by code point ranges. -/
def hexDigit (c : Char) : Option Nat :=
  let n := c.toNat
  if 48 ≤ n && n ≤ 57 then some (n - 48)
  else if 97 ≤ n && n ≤ 102 then some (n - 87)
  else if 65 ≤ n && n ≤ 70 then some (n - 55)
  else none

/-- Decode a single-letter escape sequence `\e`; `none` means the escape is
not a legal single-letter one. -/
def escapeCode (e : Char) : Option Char :=
  if e == 'n' then some '\n'
  else if e == 't' then some '\t'
  else if e == 'r' then some '\r'
  else if e == 'b' then some '\x08'
  else if e == 'f' then some '\x0c'
  else if e == '"' || e == '\\' || e == '/' then some e
  else none

/-- Read a `\uXXXX` escape's four hex digits into a code point. -/
def fourHex (h1 h2 h3 h4 : Char) : Option Char :=
  match hexDigit h1, hexDigit h2, hexDigit h3, hexDigit h4 with
  | some a, some b, some c, some d =>
    some (Char.ofNat (((a * 16 + b) * 16 + c) * 16 + d))
  | _, _, _, _ => none

/-- Parse the body of a JSON string literal after its opening quote; returns
the decoded characters and the input following the closing quote. -/
def parseStringBody : List Char → Option (List Char × List Char)
  | [] => none
  | c :: rest =>
    if c == '"' then some ([], rest)
    else if c == '\\' then
      match rest with
      | [] => none
      | e :: rest2 =>
        if e == 'u' then
          match rest2 with
          | h1 :: h2 :: h3 :: h4 :: rest3 =>
            match fourHex h1 h2 h3 h4 with
            | some decoded =>
              (parseStringBody rest3).map (fun p => (decoded :: p.1, p.2))
            | none => none
          | _ => none
        else
          match escapeCode e with
          | some decoded =>
            (parseStringBody rest2).map (fun p => (decoded :: p.1, p.2))
          | none => none
    else (parseStringBody rest).map (fun p => (c :: p.1, p.2))

/-- Characters that may occur in a JSON numeric literal. -/
def numericChar (c : Char) : Bool :=
  c.isDigit || ['-', '+', '.', 'e', 'E'].contains c

/-- Parse a numeric literal: a maximal run of numeric characters that starts
with a digit or a minus sign and contains at least one digit. -/
def parseNumberToken (cs : List Char) : Option (JsValue × List Char) :=
  let tok := cs.takeWhile numericChar
  match tok with
  | [] => none
  | c :: _ =>
    if (c.isDigit || c == '-') && tok.any Char.isDigit then
      some (JsValue.num (String.mk tok), cs.drop tok.length)
    else none

/-- Parse an atomic JSON value (string, number, boolean, null). -/
def parseAtom (cs0 : List Char) : Option (JsValue × List Char) :=
  match skipWs cs0 with
  | '"' :: rest => (parseStringBody rest).map (fun p => (JsValue.str (String.mk p.1), p.2))
  | 't' :: 'r' :: 'u' :: 'e' :: rest => some (JsValue.bool true, rest)
  | 'f' :: 'a' :: 'l' :: 's' :: 'e' :: rest => some (JsValue.bool false, rest)
  | 'n' :: 'u' :: 'l' :: 'l' :: rest => some (JsValue.null, rest)
  | cs => parseNumberToken cs

/-- Parse the members of an object after its opening brace, given a parser
`p` for element values; `fuel` bounds the number of members. -/
def parseObjRest (p : List Char → Option (JsValue × List Char)) :
    Nat → List (String × JsValue) → List Char → Option (JsValue × List Char)
  | 0, _, _ => none
  | Nat.succ fuel, acc, cs =>
    match skipWs cs with
    | '}' :: rest =>
      if acc.isEmpty then some (JsValue.obj [], rest) else none
    | '"' :: rest =>
      match parseStringBody rest with
      | none => none
      | some (key, rest2) =>
        match skipWs rest2 with
        | ':' :: rest3 =>
          match p rest3 with
          | none => none
          | some (v, rest4) =>
            match skipWs rest4 with
            | ',' :: rest5 => parseObjRest p fuel (acc ++ [(String.mk key, v)]) rest5
            | '}' :: rest5 => some (JsValue.obj (acc ++ [(String.mk key, v)]), rest5)
            | _ => none
        | _ => none
    | _ => none

/-- Parse the elements of an array after its opening bracket, given a parser
`p` for element values; `fuel` bounds the number of elements. -/
def parseArrRest (p : List Char → Option (JsValue × List Char)) :
    Nat → List JsValue → List Char → Option (JsValue × List Char)
  | 0, _, _ => none
  | Nat.succ fuel, acc, cs =>
    match skipWs cs with
    | ']' :: rest =>
      if acc.isEmpty then some (JsValue.arr [], rest) else none
    | cs' =>
      match p cs' with
      | none => none
      | some (v, rest) =>
        match skipWs rest with
        | ',' :: rest2 => parseArrRest p fuel (acc ++ [v]) rest2
        | ']' :: rest2 => some (JsValue.arr (acc ++ [v]), rest2)
        | _ => none

/-- Parse a JSON value with nesting depth at most `d`. -/
def parseValueDepth : Nat → List Char → Option (JsValue × List Char)
  | 0, cs => parseAtom cs
  | Nat.succ d, cs =>
    match skipWs cs with
    | '{' :: rest => parseObjRest (parseValueDepth d) (rest.length + 1) [] rest
    | '[' :: rest => parseArrRest (parseValueDepth d) (rest.length + 1) [] rest
    | cs' => parseAtom cs'

/-- Model of `JSON.parse`: parse one value and require only trailing
whitespace; `none` models a thrown `SyntaxError`.  Nesting depth and member
counts are bounded by the input length, so the bounds are never the reason a
well-formed input is rejected. -/
def jsonParse (s : String) : Option JsValue :=
  match parseValueDepth (s.data.length + 1) s.data with
  | some (v, rest) => if (skipWs rest).isEmpty then some v else none
  | none => none

/-- JavaScript property access `v.key` on a parsed JSON value: `none` models
`undefined`.  The last binding of a duplicated key wins, as in `JSON.parse`. -/
def jsGet (v : JsValue) (key : String) : Option JsValue :=
  match v with
  | JsValue.obj fields =>
    (fields.filterMap (fun f => if f.1 = key then some f.2 else none)).getLast?
  | _ => none

/-! ## `research-chat.tsx`: stream decoding (`streamChat`, lines 240–301)

The read loop accumulates decoded text in `buffer`, splits on `"\n"`, keeps
the final partial segment as the new buffer and hands every non-blank
trimmed complete line to `processLine`; after the stream ends the remaining
buffer, if non-blank once trimmed, is processed as a final line.  Chunks are
modelled as the strings produced by `TextDecoder.decode(value, stream:true)`.
-/

/-- The effect of `processLine` on component state: append a content delta
(and forward it to `onContentChunk`), record a `signal_created` payload
(whence `setSignalNotice`), or nothing.  An `error` event never surfaces as
an action because the `throw` in `processLine` is caught by `processLine`'s
own `catch` (see `processLine` below). -/
inductive StreamAction where
  | none
  | content (delta : String)
  | signalCreated (data : Option JsValue)

/-- Body of `processLine` (lines 262–283) up to its `catch`:
`Except.error` models a thrown exception (either `JSON.parse` throwing on a
malformed line, or the explicit `throw new Error(...)` on an `error` event).
The `content` branch reads `payload.data as string`; the cast restricts the
model to string payloads, which is the wire contract. -/
def processLineInner (line : String) : Except String StreamAction :=
  if line.data.isEmpty then Except.ok StreamAction.none
  else
    match jsonParse line with
    | Option.none => Except.error "Unexpected token"
    | Option.some payload =>
      match jsGet payload "type" with
      | Option.some (JsValue.str t) =>
        if t = "content" then
          match jsGet payload "data" with
          | Option.some (JsValue.str s) =>
            if s.data.isEmpty then Except.ok StreamAction.none
            else Except.ok (StreamAction.content s)
          | _ => Except.ok StreamAction.none
        else if t = "signal_created" then
          Except.ok (StreamAction.signalCreated (jsGet payload "data"))
        else if t = "error" then
          Except.error
            (match jsGet payload "data" with
             | Option.some (JsValue.str s) => if s.data.isEmpty then "Chat error" else s
             | _ => "Chat error")
        else Except.ok StreamAction.none
      | _ => Except.ok StreamAction.none

/-- Function `processLine` (lines 262–283): the whole body sits in a `try` whose
`catch` only logs (`console.error("Failed to parse stream chunk:", err)`),
so every thrown exception — including the `throw` for an `error` event — is
swallowed and the line contributes nothing. -/
def processLine (line : String) : StreamAction :=
  match processLineInner line with
  | Except.ok a => a
  | Except.error _ => StreamAction.none

/-- Reader-loop state: the carry-over `buffer` and the trimmed lines handed
to `processLine` so far, in order. -/
structure ReaderState where
  buffer : String
  lines : List String
  deriving DecidableEq

/-- Line 291, `parts.filter((part) => part.trim().length > 0).forEach((part) =>
processLine(part.trim()))` (line 291), as the list of lines processed. -/
def processParts (parts : List String) : List String :=
  (parts.filter (fun part => 0 < (jsTrim part).length)).map jsTrim

/-- One iteration of the read loop (lines 285–292): append the chunk to the
buffer, split on `"\n"`, keep the last segment as the new buffer
(`parts.pop() || ""`) and process the complete segments. -/
def readChunk (st : ReaderState) (chunk : String) : ReaderState :=
  let parts := jsSplitNewline (st.buffer ++ chunk)
  { buffer := (parts.getLast?).getD "",
    lines := st.lines ++ processParts parts.dropLast }

/-- The read loop over the whole chunk sequence. -/
def runReader (chunks : List String) : ReaderState :=
  chunks.foldl readChunk { buffer := "", lines := [] }

/-- All lines handed to `processLine` for a chunk sequence, including the
final buffered line without a trailing newline (lines 294–296:
`if (buffer.trim()) processLine(buffer.trim())`). -/
def streamLines (chunks : List String) : List String :=
  let st := runReader chunks
  if 0 < (jsTrim st.buffer).length then st.lines ++ [jsTrim st.buffer]
  else st.lines

/-- The line sequence a single-string transport would produce: split the
whole body on `"\n"`, trim, drop blanks. -/
def canonLines (s : String) : List String :=
  processParts (jsSplitNewline s)

/-- Accumulated effect of one stream: `assistantText` (line 260 and 270),
the chunks forwarded to `options.onContentChunk` in order (line 271), and
the `signal_created` payloads passed to `setSignalNotice` (line 275). -/
structure ChatState where
  assistantText : String
  emittedChunks : List String
  signalEvents : List (Option JsValue)

/-- Apply one routed action to the stream's accumulated state. -/
def applyAction (st : ChatState) (a : StreamAction) : ChatState :=
  match a with
  | StreamAction.none => st
  | StreamAction.content s =>
    { st with assistantText := st.assistantText ++ s,
              emittedChunks := st.emittedChunks ++ [s] }
  | StreamAction.signalCreated d =>
    { st with signalEvents := st.signalEvents ++ [d] }

/-- Process a line sequence in order.  The source interleaves `processLine`
with reading, but the only state threaded between lines is this fold's
accumulator, so the fold over the collected lines is the same computation. -/
def runLines (lines : List String) : ChatState :=
  lines.foldl (fun st line => applyAction st (processLine line))
    { assistantText := "", emittedChunks := [], signalEvents := [] }

/-- Function `streamChat` (lines 240–301) as a function of the delivered chunks:
decode lines, route each through `processLine`, return the accumulated
state (whose `assistantText` is the function's return value). -/
def streamChat (chunks : List String) : ChatState :=
  runLines (streamLines chunks)

/-! ## `research-chat.tsx`: typing animation (lines 41–42, 186–238)

`streamControllers` maps each `clientId` to an independent
`(buffer, timer)` pair, and every state update touches only the message
whose `clientId` matches, so the model tracks one id: its controller entry
(`none` when absent or deleted) and the visible `content` of its placeholder
message. -/

/-- Constant `STREAM_CHARS_PER_TICK` (line 41). -/
def STREAM_CHARS_PER_TICK : Nat := 5

/-- One entry of `streamControllers`: the pending text and whether an
interval timer is installed (`timer ≠ null`). -/
structure StreamController where
  buffer : String
  timer : Bool
  deriving DecidableEq

/-- The animation state for one `clientId`. -/
structure AnimState where
  controller : Option StreamController
  content : String
  deriving DecidableEq

/-- Function `appendAnimatedChunk` (lines 186–221): ignore empty chunks, create the
controller on demand, append to its buffer, and install a timer if none is
running.  The tick callback itself is modelled by `animTick`. -/
def appendAnimatedChunk (chunk : String) (s : AnimState) : AnimState :=
  if chunk.data.isEmpty then s
  else
    let c0 := s.controller.getD { buffer := "", timer := false }
    let c1 := { c0 with buffer := c0.buffer ++ chunk }
    if c1.timer then { s with controller := some c1 }
    else { s with controller := some { c1 with timer := true } }

/-- One firing of the interval callback (lines 197–218): with an empty
buffer the timer clears itself; otherwise a `STREAM_CHARS_PER_TICK`-char
prefix moves from the buffer into the visible content, and the timer clears
itself when the buffer empties.  A tick can only fire while a timer is
installed, so the function is the identity otherwise. -/
def animTick (s : AnimState) : AnimState :=
  match s.controller with
  | Option.none => s
  | Option.some c =>
    if c.timer = false then s
    else if c.buffer.data.isEmpty then
      { s with controller := some { c with timer := false } }
    else
      let nextChunk := jsSliceTo c.buffer STREAM_CHARS_PER_TICK
      let rest := jsSliceFrom c.buffer STREAM_CHARS_PER_TICK
      { content := s.content ++ nextChunk,
        controller := some { buffer := rest, timer := !rest.data.isEmpty } }

/-- Function `finalizeStreamController` (lines 223–238): clear the timer, move any
remaining buffered text into the visible content synchronously, and delete
the controller entry. -/
def finalizeStreamController (s : AnimState) : AnimState :=
  match s.controller with
  | Option.none => s
  | Option.some c =>
    if c.buffer.data.isEmpty then { s with controller := none }
    else { content := s.content ++ c.buffer, controller := none }

/-- The events that can happen to one `clientId` before finalization: an
`appendAnimatedChunk` call with some delta, or a timer tick. -/
inductive AnimOp where
  | append (chunk : String)
  | tick
  deriving DecidableEq

/-- Run an arbitrary interleaving of appends and ticks. -/
def runAnim (ops : List AnimOp) (s : AnimState) : AnimState :=
  ops.foldl
    (fun st op =>
      match op with
      | AnimOp.append chunk => appendAnimatedChunk chunk st
      | AnimOp.tick => animTick st)
    s

/-- The concatenation, in call order, of all deltas passed to
`appendAnimatedChunk`. -/
def appendedDeltas : List AnimOp → String
  | [] => ""
  | AnimOp.append chunk :: ops => chunk ++ appendedDeltas ops
  | AnimOp.tick :: ops => appendedDeltas ops

/-- The placeholder assistant message starts with empty content and no
controller entry (lines 318–323, 68–70). -/
def initAnimState : AnimState := { controller := none, content := "" }

/-! ## `research-chat.tsx`: `handleSendMessage` (lines 303–357, 700–712) -/

/-- A conversation message as the component stores it (timestamps are
fresh wall-clock strings and irrelevant to every claim, so omitted). -/
structure ChatMessage where
  role : String
  content : String
  clientId : Option String
  deriving DecidableEq

/-- Component state touched by the synchronous prefix of
`handleSendMessage`. -/
structure SendUiState where
  input : String
  isSending : Bool
  messages : List ChatMessage
  error : Option String
  deriving DecidableEq

/-- The synchronous prefix of `handleSendMessage` (lines 303–325), as the
state after it together with whether the handler proceeded past its only
guard.  The guard is `if (!input.trim()) return` (line 305); the function
never consults `isSending`.  When it proceeds it clears the error slot,
clears the input, appends the user message and the placeholder assistant
message carrying a fresh `clientId`, and sets `isSending`. -/
def handleSendMessageStart (newClientId : String) (s : SendUiState) :
    SendUiState × Bool :=
  if (jsTrim s.input).data.isEmpty then (s, false)
  else
    ({ input := "",
       isSending := true,
       messages := s.messages ++
         [ { role := "user", content := jsTrim s.input, clientId := none },
           { role := "assistant", content := "", clientId := some newClientId } ],
       error := none },
     true)

/-- The textarea `onKeyDown` handler (lines 703–708) invokes
`handleSendMessage` exactly when Enter is pressed without Shift; it does not
consult `isSending` (only the submit button's `disabled` attribute does,
line 717). -/
def onKeyDownInvokesSend (key : String) (shiftKey : Bool) : Bool :=
  key == "Enter" && !shiftKey

/-- The outcome of the `fetch` opening the stream: `httpError` models
`!response.ok || !response.body` (line 253), which throws before any line
is read. -/
inductive FetchOutcome where
  | httpError
  | ok (chunks : List String)

/-- What the send cycle leaves behind for the placeholder assistant
message and the session error slot. -/
structure SendResult where
  placeholderContent : String
  errorSlot : Option String

/-- The remainder of `handleSendMessage` (lines 327–356) after the stream
has been opened.  On an HTTP failure `streamChat` throws and the `catch`
replaces the placeholder with the fixed failure notice and surfaces the
message.  Otherwise the stream runs to completion — the model's
`streamChat` never throws, because every exception inside `processLine`
(including the one for an `error` event) is caught by `processLine`'s own
`catch` — the animation is finalized, and an empty `assistantText` is
replaced by the fixed empty-response notice.  The placeholder content is
computed through the animation pipeline on the chunks forwarded to
`onContentChunk`; ticks are omitted because the post-`finalize` content
does not depend on them (proved below as the C1 theorem). -/
def handleSendStream (outcome : FetchOutcome) : SendResult :=
  match outcome with
  | FetchOutcome.httpError =>
    { placeholderContent := "There was an error generating a response.",
      errorSlot := some "Research chat service is unavailable. Please try again." }
  | FetchOutcome.ok chunks =>
    let st := streamChat chunks
    let animated :=
      finalizeStreamController (runAnim (st.emittedChunks.map AnimOp.append) initAnimState)
    if st.assistantText.data.isEmpty then
      { placeholderContent := "No response received. Please try again.",
        errorSlot := none }
    else
      { placeholderContent := animated.content, errorSlot := none }

/-! ## `signals-table.tsx`: lifecycle transitions and deletion -/

/-- One row of the signals list (fields the handlers read). -/
structure SignalRow where
  id : String
  status : String
  conversation_id : Option String
  deriving DecidableEq

/-- Component state touched by the signals-table handlers: the local list,
the error slot, the pending delete confirmation, and the `console.error`
diagnostic log. -/
structure SignalsState where
  signals : List SignalRow
  error : Option String
  deleteConfirmId : Option String
  log : List String
  deriving DecidableEq

/-- Function `fetchSignals` (lines 33–43): on success the authoritative list replaces
local state verbatim; on failure the error slot is set and the list is left
alone. -/
def fetchSignals (fetchOk : Bool) (authority : List SignalRow)
    (s : SignalsState) : SignalsState :=
  if fetchOk then { s with signals := authority }
  else { s with error := some "Unable to load signals right now.",
                log := s.log ++ ["Failed to load signals:"] }

/-- Function `handlePause` (lines 45–53): request the transition against the
authority; only on success is `fetchSignals` invoked — the `catch` merely
logs. -/
def handlePause (requestOk fetchOk : Bool) (authority : List SignalRow)
    (s : SignalsState) : SignalsState :=
  if requestOk then fetchSignals fetchOk authority s
  else { s with log := s.log ++ ["Failed to pause signal:"] }

/-- Function `handleResume` (lines 55–63): same shape as `handlePause`. -/
def handleResume (requestOk fetchOk : Bool) (authority : List SignalRow)
    (s : SignalsState) : SignalsState :=
  if requestOk then fetchSignals fetchOk authority s
  else { s with log := s.log ++ ["Failed to resume signal:"] }

/-- Function `handleStop` (lines 65–74): an extra `confirm(...)` gate, then the same
shape as `handlePause`. -/
def handleStop (confirmed requestOk fetchOk : Bool) (authority : List SignalRow)
    (s : SignalsState) : SignalsState :=
  if !confirmed then s
  else if requestOk then fetchSignals fetchOk authority s
  else { s with log := s.log ++ ["Failed to stop signal:"] }

/-- Function `handleConfirmDelete` (lines 81–108): look up the signal for its
`conversation_id`, delete the signal against the authority, then best-effort
delete the associated conversation — a failure there is only logged by the
inner `catch` ("Continue even if conversation deletion fails") — and
finally remove the signal from the local list and close the dialog.  A
failure of the primary delete hits the outer `catch`: error slot set,
dialog closed, list unchanged. -/
def handleConfirmDelete (primaryOk cascadeOk : Bool) (s : SignalsState) :
    SignalsState :=
  match s.deleteConfirmId with
  | Option.none => s
  | Option.some did =>
    if primaryOk then
      let signal := s.signals.find? (fun x => x.id == did)
      let log1 :=
        match signal with
        | Option.some sg =>
          match sg.conversation_id with
          | Option.some _ =>
            if cascadeOk then s.log
            else s.log ++ ["Failed to delete associated conversation:"]
          | Option.none => s.log
        | Option.none => s.log
      { s with signals := s.signals.filter (fun x => !(x.id == did)),
               deleteConfirmId := none,
               log := log1 }
    else
      { s with error := some "Unable to delete signal. Please try again.",
               deleteConfirmId := none,
               log := s.log ++ ["Failed to delete signal:"] }

/-! ## `signal-event-detail.tsx`: CSV export (lines 68–76) -/

/-- Browser interactions a handler can perform; `networkRequest` is the
constructor `apiClient` calls are modelled with. -/
inductive BrowserStep where
  | createBlob (content : String) (mime : String)
  | createObjectUrl
  | setAnchorDownload (name : String)
  | anchorClick
  | revokeObjectUrl
  | networkRequest (url : String)
  deriving DecidableEq

/-- The artifact an anchor click with a `download` attribute hands to the
browser: the blob's content under the anchor's download name. -/
structure DownloadedFile where
  name : String
  content : String
  deriving DecidableEq

/-- Function `downloadCSV` (lines 68–76): wrap the already-resident CSV string in a
blob, point an anchor at its object URL under
`` `${ticker}_backtest_data.csv` ``, click it, revoke the URL.  The step
trace records every browser interaction the body performs. -/
def downloadCSV (csv : String) (ticker : String) :
    List BrowserStep × DownloadedFile :=
  ([ BrowserStep.createBlob csv "text/csv",
     BrowserStep.createObjectUrl,
     BrowserStep.setAnchorDownload (ticker ++ "_backtest_data.csv"),
     BrowserStep.anchorClick,
     BrowserStep.revokeObjectUrl ],
   { name := ticker ++ "_backtest_data.csv", content := csv })

/-- Function `fetchEvents` (lines 53–66) by contrast opens with a network request;
the claims compare `downloadCSV`'s trace against this kind of step. -/
def fetchEventsSteps (signalId : String) : List BrowserStep :=
  [BrowserStep.networkRequest ("/signals/" ++ signalId ++ "/events")]

/-- Whether a browser step touches the network. -/
def isNetworkStep : BrowserStep → Bool
  | BrowserStep.networkRequest _ => true
  | _ => false

/-! ## String helpers -/

theorem data_append (s t : String) : (s ++ t).data = s.data ++ t.data := by
  cases s; cases t; rfl

theorem eq_of_data_eq {s t : String} (h : s.data = t.data) : s = t := by
  cases s; cases t; exact congrArg String.mk h

/-! ## Animation: the drain invariant -/

/-- The text still queued for animation for this id. -/
def pendingBuffer (s : AnimState) : List Char :=
  match s.controller with
  | Option.some c => c.buffer.data
  | Option.none => []

theorem pending_append (chunk : String) (s : AnimState) :
    (appendAnimatedChunk chunk s).content.data ++ pendingBuffer (appendAnimatedChunk chunk s)
      = s.content.data ++ (pendingBuffer s ++ chunk.data) := by
  unfold appendAnimatedChunk
  cases h : chunk.data.isEmpty with
  | true =>
    have hc : chunk.data = [] := by simpa using h
    simp [hc]
  | false =>
    cases hco : s.controller with
    | none => simp [hco, pendingBuffer, data_append]
    | some c =>
      cases ht : c.timer with
      | true => simp [hco, ht, pendingBuffer, data_append]
      | false => simp [hco, ht, pendingBuffer, data_append]

theorem pending_tick (s : AnimState) :
    (animTick s).content.data ++ pendingBuffer (animTick s)
      = s.content.data ++ pendingBuffer s := by
  unfold animTick
  cases hco : s.controller with
  | none => rfl
  | some c =>
    cases ht : c.timer with
    | false => simp [hco, ht, pendingBuffer]
    | true =>
      cases hb : c.buffer.data.isEmpty with
      | true => simp [hco, ht, hb, pendingBuffer]
      | false =>
        simp [hco, ht, hb, pendingBuffer, jsSliceTo, jsSliceFrom,
          STREAM_CHARS_PER_TICK, List.take_append_drop]

theorem finalize_content (s : AnimState) :
    (finalizeStreamController s).content.data = s.content.data ++ pendingBuffer s := by
  unfold finalizeStreamController
  cases hco : s.controller with
  | none => simp [hco, pendingBuffer]
  | some c =>
    cases hb : c.buffer.data.isEmpty with
    | true =>
      have hc : c.buffer.data = [] := by simpa using hb
      simp [hco, hb, pendingBuffer, hc]
    | false => simp [hco, hb, pendingBuffer, data_append]

theorem finalize_controller (s : AnimState) :
    (finalizeStreamController s).controller = none := by
  unfold finalizeStreamController
  cases hco : s.controller with
  | none => simp [hco]
  | some c =>
    cases hb : c.buffer.data.isEmpty with
    | true => simp [hb]
    | false => simp [hb]

theorem animTick_of_no_controller {s : AnimState} (h : s.controller = none) :
    animTick s = s := by
  unfold animTick
  simp [h]

theorem animTick_iterate_of_no_controller (n : Nat) {s : AnimState}
    (h : s.controller = none) : animTick^[n] s = s := by
  induction n with
  | zero => rfl
  | succ n ih =>
    rw [Function.iterate_succ_apply, animTick_of_no_controller h, ih]

theorem runAnim_invariant (ops : List AnimOp) :
    ∀ s : AnimState,
      (runAnim ops s).content.data ++ pendingBuffer (runAnim ops s)
        = s.content.data ++ (pendingBuffer s ++ (appendedDeltas ops).data) := by
  induction ops with
  | nil => intro s; simp [runAnim, appendedDeltas]
  | cons op ops ih =>
    intro s
    cases op with
    | append chunk =>
      have hstep : runAnim (AnimOp.append chunk :: ops) s
          = runAnim ops (appendAnimatedChunk chunk s) := rfl
      rw [hstep, ih (appendAnimatedChunk chunk s)]
      have h1 := pending_append chunk s
      have h2 : (appendedDeltas (AnimOp.append chunk :: ops)).data
          = chunk.data ++ (appendedDeltas ops).data := by
        simp [appendedDeltas, data_append]
      rw [h2]
      calc (appendAnimatedChunk chunk s).content.data
            ++ (pendingBuffer (appendAnimatedChunk chunk s) ++ (appendedDeltas ops).data)
          = ((appendAnimatedChunk chunk s).content.data
              ++ pendingBuffer (appendAnimatedChunk chunk s)) ++ (appendedDeltas ops).data := by
            simp [List.append_assoc]
        _ = (s.content.data ++ (pendingBuffer s ++ chunk.data)) ++ (appendedDeltas ops).data := by
            rw [h1]
        _ = s.content.data ++ (pendingBuffer s ++ (chunk.data ++ (appendedDeltas ops).data)) := by
            simp [List.append_assoc]
    | tick =>
      have hstep : runAnim (AnimOp.tick :: ops) s = runAnim ops (animTick s) := rfl
      rw [hstep, ih (animTick s)]
      have h1 := pending_tick s
      have h2 : (appendedDeltas (AnimOp.tick :: ops)).data = (appendedDeltas ops).data := by
        simp [appendedDeltas]
      rw [h2]
      calc (animTick s).content.data ++ (pendingBuffer (animTick s) ++ (appendedDeltas ops).data)
          = ((animTick s).content.data ++ pendingBuffer (animTick s)) ++ (appendedDeltas ops).data := by
            simp [List.append_assoc]
        _ = (s.content.data ++ pendingBuffer s) ++ (appendedDeltas ops).data := by rw [h1]
        _ = s.content.data ++ (pendingBuffer s ++ (appendedDeltas ops).data) := by
            simp [List.append_assoc]

/-- C1: for every finite interleaving of `appendAnimatedChunk` calls and
playback ticks for one clientId, the visible content of the message
carrying that clientId after `finalizeStreamController` equals the exact
concatenation, in call order, of all deltas passed to
`appendAnimatedChunk` — no character lost, duplicated, or reordered. -/
theorem finalize_yields_exact_concatenation (ops : List AnimOp) :
    (finalizeStreamController (runAnim ops initAnimState)).content
      = appendedDeltas ops := by
  apply eq_of_data_eq
  rw [finalize_content]
  have h := runAnim_invariant ops initAnimState
  simpa [initAnimState, pendingBuffer] using h

/-- C8: if `finalizeStreamController` runs while the id's buffer is
non-empty, the remaining buffered text moves into visible content
synchronously within that call, the controller entry is gone, and no
number of further playback ticks changes the state. -/
theorem finalize_drains_and_stops (s : AnimState) (c : StreamController)
    (h1 : s.controller = some c) (h2 : c.buffer.data.isEmpty = false) :
    (finalizeStreamController s).content = s.content ++ c.buffer ∧
    (finalizeStreamController s).controller = none ∧
    ∀ n : Nat, animTick^[n] (finalizeStreamController s) = finalizeStreamController s := by
  refine ⟨?_, finalize_controller s, ?_⟩
  · unfold finalizeStreamController
    simp [h1, h2]
  · intro n
    exact animTick_iterate_of_no_controller n (finalize_controller s)

/-- Witness for C8 at a concrete state: seven buffered characters drain
synchronously, the controller entry disappears, and two further ticks
change nothing. -/
theorem finalize_drains_and_stops_witness :
    (finalizeStreamController
        { controller := some { buffer := "abcdefg", timer := true }, content := "Hi " }).content
      = "Hi " ++ "abcdefg" ∧
    (finalizeStreamController
        { controller := some { buffer := "abcdefg", timer := true }, content := "Hi " }).controller
      = none ∧
    animTick^[2] (finalizeStreamController
        { controller := some { buffer := "abcdefg", timer := true }, content := "Hi " })
      = finalizeStreamController
        { controller := some { buffer := "abcdefg", timer := true }, content := "Hi " } := by
  have h := finalize_drains_and_stops
    { controller := some { buffer := "abcdefg", timer := true }, content := "Hi " }
    { buffer := "abcdefg", timer := true } rfl (by decide)
  exact ⟨h.1, h.2.1, h.2.2 2⟩

/-! ## Stream decoding: chunk-boundary independence -/

theorem splitNewlineL_ne_nil (cs : List Char) : splitNewlineL cs ≠ [] := by
  induction cs with
  | nil => simp [splitNewlineL]
  | cons c rest ih =>
    by_cases hc : c = '\n'
    · simp [splitNewlineL, hc]
    · cases hs : splitNewlineL rest with
      | nil => simp [splitNewlineL, hc, hs]
      | cons l ls => simp [splitNewlineL, hc, hs]

theorem splitNewlineL_cons_newline (rest : List Char) :
    splitNewlineL ('\n' :: rest) = [] :: splitNewlineL rest := by
  simp [splitNewlineL]

theorem splitNewlineL_cons_other {c : Char} (hc : ¬c = '\n') {rest : List Char}
    {l : List Char} {ls : List (List Char)} (h : splitNewlineL rest = l :: ls) :
    splitNewlineL (c :: rest) = (c :: l) :: ls := by
  simp [splitNewlineL, hc, h]

/-- Splitting a concatenation: all but the last segment of the left part,
then the split of the left part's last segment glued onto the right part. -/
theorem splitNewlineL_append (a b : List Char) :
    splitNewlineL (a ++ b)
      = (splitNewlineL a).dropLast
        ++ splitNewlineL (((splitNewlineL a).getLast?).getD [] ++ b) := by
  induction a with
  | nil => simp [splitNewlineL]
  | cons c a ih =>
    obtain ⟨s₀, S', hS⟩ := List.exists_cons_of_ne_nil (splitNewlineL_ne_nil a)
    obtain ⟨t₀, T, hT⟩ := List.exists_cons_of_ne_nil (splitNewlineL_ne_nil (a ++ b))
    by_cases hc : c = '\n'
    · subst hc
      rw [List.cons_append, splitNewlineL_cons_newline, splitNewlineL_cons_newline, hS,
        List.dropLast_cons₂, List.getLast?_cons_cons, ← hS, ih]
      simp
    · cases hS' : S' with
      | nil =>
        rw [hS'] at hS
        have hab : splitNewlineL (a ++ b) = splitNewlineL (s₀ ++ b) := by
          rw [ih, hS]; simp
        obtain ⟨v₀, V, hV⟩ :=
          List.exists_cons_of_ne_nil (splitNewlineL_ne_nil (s₀ ++ b))
        rw [List.cons_append, splitNewlineL_cons_other hc (hab.trans hV),
          splitNewlineL_cons_other hc hS]
        simp [splitNewlineL_cons_other hc hV]
      | cons u S'' =>
        rw [hS'] at hS
        have hIH : t₀ :: T
            = s₀ :: ((u :: S'').dropLast
                ++ splitNewlineL (((u :: S'').getLast?).getD [] ++ b)) := by
          rw [← hT, ih, hS, List.dropLast_cons₂, List.getLast?_cons_cons]
          simp
        have ht₀ : t₀ = s₀ := by
          have h := congrArg List.headI hIH
          simpa using h
        have hT' : T = (u :: S'').dropLast
            ++ splitNewlineL (((u :: S'').getLast?).getD [] ++ b) := by
          have h := congrArg List.tail hIH
          simpa using h
        rw [List.cons_append, splitNewlineL_cons_other hc hT,
          splitNewlineL_cons_other hc hS,
          List.dropLast_cons₂, List.getLast?_cons_cons, ht₀, hT']
        simp

theorem mk_data (s : String) : String.mk s.data = s := by
  cases s; rfl

theorem string_append_empty (s : String) : s ++ "" = s := by
  apply eq_of_data_eq
  simp [data_append]

theorem string_append_assoc (a b c : String) : (a ++ b) ++ c = a ++ (b ++ c) := by
  apply eq_of_data_eq
  simp [data_append]

/-- The concatenation of a chunk sequence: the full stream body. -/
def concatChunks : List String → String
  | [] => ""
  | c :: cs => c ++ concatChunks cs

theorem splitNewlineL_no_newline (cs : List Char) :
    ∀ l ∈ splitNewlineL cs, ¬ '\n' ∈ l := by
  induction cs with
  | nil =>
    intro l hl
    simp [splitNewlineL] at hl
    simp [hl]
  | cons c rest ih =>
    by_cases hc : c = '\n'
    · subst hc
      rw [splitNewlineL_cons_newline]
      intro l hl
      rcases List.mem_cons.mp hl with h | h
      · simp [h]
      · exact ih l h
    · obtain ⟨s₀, S', hS⟩ := List.exists_cons_of_ne_nil (splitNewlineL_ne_nil rest)
      rw [splitNewlineL_cons_other hc hS]
      intro l hl
      rcases List.mem_cons.mp hl with h | h
      · subst h
        intro hmem
        rcases List.mem_cons.mp hmem with h' | h'
        · exact hc h'.symm
        · exact ih s₀ (hS ▸ List.mem_cons_self s₀ S') h'
      · exact ih l (hS ▸ List.mem_cons_of_mem s₀ h)

theorem splitNewlineL_of_no_newline {cs : List Char} (h : ¬ '\n' ∈ cs) :
    splitNewlineL cs = [cs] := by
  induction cs with
  | nil => rfl
  | cons c rest ih =>
    have hc : ¬c = '\n' := fun he => h (he ▸ List.mem_cons_self c rest)
    have hrest : ¬ '\n' ∈ rest := fun hm => h (List.mem_cons_of_mem c hm)
    rw [splitNewlineL_cons_other hc (ih hrest)]

theorem jsSplitNewline_ne_nil (s : String) : jsSplitNewline s ≠ [] := by
  unfold jsSplitNewline
  simp [splitNewlineL_ne_nil]

theorem getLast?_map {α β : Type} (f : α → β) (l : List α) :
    (l.map f).getLast? = (l.getLast?).map f := by
  induction l with
  | nil => rfl
  | cons a l ih =>
    cases l with
    | nil => rfl
    | cons b t =>
      rw [List.map_cons, List.map_cons, List.getLast?_cons_cons,
        List.getLast?_cons_cons, ← List.map_cons]
      exact ih

theorem dropLast_map {α β : Type} (f : α → β) (l : List α) :
    (l.map f).dropLast = l.dropLast.map f := by
  induction l with
  | nil => rfl
  | cons a l ih =>
    cases l with
    | nil => rfl
    | cons b t =>
      rw [List.map_cons, List.map_cons, List.dropLast_cons₂, List.dropLast_cons₂,
        List.map_cons, ← List.map_cons, ih]

/-- The buffer the reader carries over — the last split segment — as the
underlying segment of the character-level split. -/
theorem last_buffer_data (x : String) :
    (((jsSplitNewline x).getLast?).getD "").data
      = ((splitNewlineL x.data).getLast?).getD [] := by
  obtain ⟨l, ls, hl⟩ := List.exists_cons_of_ne_nil (splitNewlineL_ne_nil x.data)
  have hsome : (splitNewlineL x.data).getLast?
      = some ((splitNewlineL x.data).getLast (splitNewlineL_ne_nil x.data)) :=
    List.getLast?_eq_getLast_of_ne_nil _
  unfold jsSplitNewline
  rw [getLast?_map, hsome]
  rfl

/-- The carried-over buffer never contains a newline. -/
theorem no_newline_in_last (s : String) :
    ¬ '\n' ∈ (((jsSplitNewline s).getLast?).getD "").data := by
  rw [last_buffer_data]
  have hsome : (splitNewlineL s.data).getLast?
      = some ((splitNewlineL s.data).getLast (splitNewlineL_ne_nil s.data)) :=
    List.getLast?_eq_getLast_of_ne_nil _
  rw [hsome]
  exact splitNewlineL_no_newline s.data _ (List.getLast_mem _)

/-- String-level version of `splitNewlineL_append`. -/
theorem jsSplitNewline_append (x y : String) :
    jsSplitNewline (x ++ y)
      = (jsSplitNewline x).dropLast
        ++ jsSplitNewline ((((jsSplitNewline x).getLast?).getD "") ++ y) := by
  have hdata : ((((jsSplitNewline x).getLast?).getD "") ++ y).data
      = ((splitNewlineL x.data).getLast?).getD [] ++ y.data := by
    rw [data_append, last_buffer_data]
  unfold jsSplitNewline
  rw [data_append, splitNewlineL_append x.data y.data, List.map_append]
  congr 1
  · rw [dropLast_map]
  · rw [show (((splitNewlineL x.data).map String.mk).getLast?.getD "")
        = ((jsSplitNewline x).getLast?).getD "" from rfl]
    rw [hdata]

theorem processParts_append (x y : List String) :
    processParts (x ++ y) = processParts x ++ processParts y := by
  simp [processParts, List.filter_append]

theorem processParts_singleton (x : String) :
    processParts [x] = if 0 < (jsTrim x).length then [jsTrim x] else [] := by
  by_cases hx : 0 < (jsTrim x).length
  · simp [processParts, hx]
  · simp [processParts, hx]

/-- The reader loop, started from any carry-over buffer without a newline,
computes the split of the whole remaining input: the completed trimmed
non-blank segments in order, with the final segment as the new buffer. -/
theorem runReader_invariant (chunks : List String) :
    ∀ st : ReaderState, ¬ '\n' ∈ st.buffer.data →
      List.foldl readChunk st chunks
        = { buffer := ((jsSplitNewline (st.buffer ++ concatChunks chunks)).getLast?).getD "",
            lines := st.lines
              ++ processParts (jsSplitNewline (st.buffer ++ concatChunks chunks)).dropLast } := by
  induction chunks with
  | nil =>
    intro st h
    have hsplit : jsSplitNewline st.buffer = [st.buffer] := by
      unfold jsSplitNewline
      rw [splitNewlineL_of_no_newline h, List.map_cons, List.map_nil, mk_data]
    simp [concatChunks, string_append_empty, hsplit, processParts]
  | cons chunk chunks ih =>
    intro st h
    have hnn : ¬ '\n' ∈ (readChunk st chunk).buffer.data := no_newline_in_last _
    have hfold : List.foldl readChunk st (chunk :: chunks)
        = List.foldl readChunk (readChunk st chunk) chunks := rfl
    rw [hfold, ih _ hnn]
    have hassoc : st.buffer ++ concatChunks (chunk :: chunks)
        = (st.buffer ++ chunk) ++ concatChunks chunks := by
      rw [string_append_assoc]; rfl
    rw [hassoc, jsSplitNewline_append (st.buffer ++ chunk) (concatChunks chunks)]
    obtain ⟨v, V, hV⟩ := List.exists_cons_of_ne_nil
      (jsSplitNewline_ne_nil
        ((((jsSplitNewline (st.buffer ++ chunk)).getLast?).getD "") ++ concatChunks chunks))
    simp only [ReaderState.mk.injEq]
    constructor
    · show ((jsSplitNewline ((((jsSplitNewline (st.buffer ++ chunk)).getLast?).getD "")
          ++ concatChunks chunks)).getLast?).getD "" = _
      rw [hV, List.getLast?_append_cons]
    · show (readChunk st chunk).lines ++ _ = _
      rw [show (readChunk st chunk).lines
          = st.lines ++ processParts (jsSplitNewline (st.buffer ++ chunk)).dropLast from rfl]
      rw [hV, List.dropLast_append_cons, processParts_append, List.append_assoc, ← hV]
      rfl

/-- Decoding result: `streamLines` of a chunk sequence equals the canonical line sequence of
the concatenated stream body. -/
theorem streamLines_eq_canon (chunks : List String) :
    streamLines chunks = canonLines (concatChunks chunks) := by
  have hrun := runReader_invariant chunks { buffer := "", lines := [] } (by simp)
  have hempty : ("" : String) ++ concatChunks chunks = concatChunks chunks := by
    apply eq_of_data_eq
    rw [data_append]
    rfl
  rw [hempty] at hrun
  unfold streamLines runReader canonLines
  rw [hrun]
  obtain ⟨l, ls, hl⟩ := List.exists_cons_of_ne_nil (jsSplitNewline_ne_nil (concatChunks chunks))
  have hlast : (jsSplitNewline (concatChunks chunks)).getLast?
      = some ((jsSplitNewline (concatChunks chunks)).getLast (jsSplitNewline_ne_nil _)) :=
    List.getLast?_eq_getLast_of_ne_nil _
  have hdecomp : jsSplitNewline (concatChunks chunks)
      = (jsSplitNewline (concatChunks chunks)).dropLast
        ++ [(jsSplitNewline (concatChunks chunks)).getLast (jsSplitNewline_ne_nil _)] :=
    (List.dropLast_append_getLast _).symm
  rw [hlast]
  simp only [Option.getD_some, List.nil_append]
  by_cases hcond :
      0 < (jsTrim ((jsSplitNewline (concatChunks chunks)).getLast (jsSplitNewline_ne_nil _))).length
  · rw [if_pos hcond]
    conv_rhs => rw [hdecomp]
    rw [processParts_append, processParts_singleton, if_pos hcond]
  · rw [if_neg hcond]
    conv_rhs => rw [hdecomp]
    rw [processParts_append, processParts_singleton, if_neg hcond, List.append_nil]

/-- C2: for a fixed stream body, any two ways the transport partitions it
into chunks yield the identical ordered list of processed lines, hence the
identical ordered list of decoded events — including the final buffered
line without a trailing newline. -/
theorem streamChat_chunking_independent (c₁ c₂ : List String)
    (h : concatChunks c₁ = concatChunks c₂) :
    streamLines c₁ = streamLines c₂ ∧
    (streamLines c₁).map processLine = (streamLines c₂).map processLine ∧
    streamChat c₁ = streamChat c₂ := by
  have hl : streamLines c₁ = streamLines c₂ := by
    rw [streamLines_eq_canon, streamLines_eq_canon, h]
  exact ⟨hl, by rw [hl], by unfold streamChat; rw [hl]⟩

/-- Witness for C2: the same two-line body — whose final line has no
trailing newline — delivered in one chunk, or split mid-JSON across three
chunks, decodes identically. -/
theorem streamChat_chunking_independent_witness :
    streamLines ["\x7b\"type\":\"content\",\"data\":\"Hel\"\x7d\n\x7b\"type\":\"done\"\x7d"]
      = streamLines ["\x7b\"type\":\"content\",\"da", "ta\":\"Hel\"\x7d\n\x7b\"ty", "pe\":\"done\"\x7d"] ∧
    (streamLines ["\x7b\"type\":\"content\",\"data\":\"Hel\"\x7d\n\x7b\"type\":\"done\"\x7d"]).map processLine
      = (streamLines ["\x7b\"type\":\"content\",\"da", "ta\":\"Hel\"\x7d\n\x7b\"ty", "pe\":\"done\"\x7d"]).map processLine ∧
    streamChat ["\x7b\"type\":\"content\",\"data\":\"Hel\"\x7d\n\x7b\"type\":\"done\"\x7d"]
      = streamChat ["\x7b\"type\":\"content\",\"da", "ta\":\"Hel\"\x7d\n\x7b\"ty", "pe\":\"done\"\x7d"] :=
  streamChat_chunking_independent _ _ (by decide)

/-! ## Error events, malformed lines, and the send cycle -/

/-- C3, evaluated at the failing input: an explicit `error` event does not
terminate the stream.  The `throw` in `processLine` is caught by
`processLine`'s own `catch`, so the event is dropped like a malformed line,
the following `content` line is still appended, the placeholder keeps the
streamed text instead of the fixed failure notice, and the session error
slot stays empty. -/
theorem error_event_swallowed_at_failing_input :
    processLine "\x7b\"type\":\"error\",\"data\":\"boom\"\x7d" = StreamAction.none ∧
    (streamChat ["\x7b\"type\":\"content\",\"data\":\"Hel\"\x7d\n\x7b\"type\":\"error\",\"data\":\"boom\"\x7d\n\x7b\"type\":\"content\",\"data\":\"lo\"\x7d\n"]).assistantText
      = "Hello" ∧
    (handleSendStream (FetchOutcome.ok
        ["\x7b\"type\":\"content\",\"data\":\"Hel\"\x7d\n\x7b\"type\":\"error\",\"data\":\"boom\"\x7d\n\x7b\"type\":\"content\",\"data\":\"lo\"\x7d\n"])).placeholderContent
      = "Hello" ∧
    (handleSendStream (FetchOutcome.ok
        ["\x7b\"type\":\"content\",\"data\":\"Hel\"\x7d\n\x7b\"type\":\"error\",\"data\":\"boom\"\x7d\n\x7b\"type\":\"content\",\"data\":\"lo\"\x7d\n"])).errorSlot
      = none :=
  ⟨rfl, rfl, rfl, rfl⟩

/-- C4: a line that is not valid JSON, or whose type tag is unrecognized,
is dropped without failing the stream, and every remaining line is still
decoded and routed; in particular inserting `not-json` between two valid
content lines leaves the second one appended. -/
theorem malformed_or_unrecognized_line_dropped :
    (∀ line : String, jsonParse line = none → processLine line = StreamAction.none) ∧
    (∀ line : String, ∀ payload : JsValue, ∀ t : String,
        jsonParse line = some payload →
        jsGet payload "type" = some (JsValue.str t) →
        ¬t = "content" → ¬t = "signal_created" → ¬t = "error" →
        processLine line = StreamAction.none) ∧
    (∀ pre post : List String, ∀ bad : String,
        processLine bad = StreamAction.none →
        runLines (pre ++ bad :: post) = runLines (pre ++ post)) ∧
    (runLines ["\x7b\"type\":\"content\",\"data\":\"Hel\"\x7d", "not-json",
        "\x7b\"type\":\"content\",\"data\":\"lo\"\x7d"]).assistantText = "Hello" := by
  refine ⟨?_, ?_, ?_, rfl⟩
  · intro line h
    by_cases he : line.data.isEmpty
    · simp [processLine, processLineInner, he]
    · simp [processLine, processLineInner, he, h]
  · intro line payload t hp hty ht1 ht2 ht3
    by_cases he : line.data.isEmpty
    · simp [processLine, processLineInner, he]
    · simp [processLine, processLineInner, he, hp, hty, ht1, ht2, ht3]
  · intro pre post bad h
    unfold runLines
    rw [List.foldl_append, List.foldl_append, List.foldl_cons, h]
    rfl

/-- Witness for C4: `not-json` fails `JSON.parse` and is dropped, and the
stream containing it decodes exactly like the stream without it. -/
theorem malformed_line_dropped_witness :
    processLine "not-json" = StreamAction.none ∧
    runLines ["\x7b\"type\":\"content\",\"data\":\"Hel\"\x7d", "not-json",
        "\x7b\"type\":\"content\",\"data\":\"lo\"\x7d"]
      = runLines ["\x7b\"type\":\"content\",\"data\":\"Hel\"\x7d",
        "\x7b\"type\":\"content\",\"data\":\"lo\"\x7d"] :=
  ⟨malformed_or_unrecognized_line_dropped.1 "not-json" rfl,
   malformed_or_unrecognized_line_dropped.2.2.1
     ["\x7b\"type\":\"content\",\"data\":\"Hel\"\x7d"]
     ["\x7b\"type\":\"content\",\"data\":\"lo\"\x7d"]
     "not-json"
     (malformed_or_unrecognized_line_dropped.1 "not-json" rfl)⟩

/-- C5, evaluated at the failing input: `handleSendMessage` proceeds even
while `isSending` is set.  Its only guard is the blank-input check, the
Enter-key path invokes it unconditionally, and an invocation with non-empty
input during an in-flight send appends the two messages and opens a second
stream rather than being rejected. -/
theorem send_handler_not_guarded_by_isSending :
    onKeyDownInvokesSend "Enter" false = true ∧
    (handleSendMessageStart "c1"
        { input := "hi", isSending := true, messages := [], error := none }).2 = true ∧
    (handleSendMessageStart "c1"
        { input := "hi", isSending := true, messages := [], error := none }).1.messages
      = [ { role := "user", content := "hi", clientId := none },
          { role := "assistant", content := "", clientId := some "c1" } ] := by
  refine ⟨rfl, rfl, ?_⟩
  decide

/-- C6, counterexample: after a failed pause request the local list is not
re-fetched — the handler's `catch` only logs — so local state does not come
to match the authority, contradicting the claim that the list is re-fetched
and replaced verbatim on success and failure alike. -/
theorem transition_failure_skips_refetch :
    (handlePause false true [{ id := "s1", status := "active", conversation_id := none }]
        { signals := [], error := none, deleteConfirmId := none, log := [] }).signals = [] ∧
    (handlePause false true [{ id := "s1", status := "active", conversation_id := none }]
        { signals := [], error := none, deleteConfirmId := none, log := [] }).signals
      ≠ [{ id := "s1", status := "active", conversation_id := none }] := by
  refine ⟨rfl, ?_⟩
  decide

/-- C6, amended: no transition handler mutates the local list optimistically
— on request failure the list (and error slot) are left untouched — and
after a successful transition request the re-fetched authoritative list
replaces local state verbatim. -/
theorem transitions_refetch_only_on_success (requestOk : Bool)
    (authority : List SignalRow) (s : SignalsState) :
    (handlePause requestOk true authority s).signals
        = (if requestOk then authority else s.signals) ∧
    (handleResume requestOk true authority s).signals
        = (if requestOk then authority else s.signals) ∧
    (handleStop true requestOk true authority s).signals
        = (if requestOk then authority else s.signals) ∧
    (handleStop false requestOk true authority s).signals = s.signals ∧
    (handlePause requestOk true authority s).error = s.error ∧
    (handleResume requestOk true authority s).error = s.error ∧
    (handleStop true requestOk true authority s).error = s.error := by
  cases requestOk <;>
    simp [handlePause, handleResume, handleStop, fetchSignals]

/-- C7: when the primary signal delete succeeds and the cascaded delete of
its associated conversation fails, the signal is still removed from the
local list, the error slot is untouched, the cascade failure lands only in
the diagnostic log, and the dialog closes. -/
theorem cascade_failure_keeps_primary_delete (s : SignalsState) (did : String)
    (sg : SignalRow) (cid : String)
    (h1 : s.deleteConfirmId = some did)
    (h2 : s.signals.find? (fun x => x.id == did) = some sg)
    (h3 : sg.conversation_id = some cid) :
    (handleConfirmDelete true false s).signals
        = s.signals.filter (fun x => !(x.id == did)) ∧
    (handleConfirmDelete true false s).error = s.error ∧
    (handleConfirmDelete true false s).log
        = s.log ++ ["Failed to delete associated conversation:"] ∧
    (handleConfirmDelete true false s).deleteConfirmId = none := by
  unfold handleConfirmDelete
  rw [h1]
  simp [h2, h3]

/-- Witness for C7 at a concrete table: deleting `s1`, whose conversation
delete fails, still removes `s1` and only logs. -/
theorem cascade_failure_keeps_primary_delete_witness :
    (handleConfirmDelete true false
        { signals := [ { id := "s1", status := "active", conversation_id := some "c9" },
                       { id := "s2", status := "paused", conversation_id := none } ],
          error := none, deleteConfirmId := some "s1", log := [] }).signals
      = [ { id := "s1", status := "active", conversation_id := some "c9" },
          { id := "s2", status := "paused", conversation_id := none }
        ].filter (fun x => !(x.id == "s1")) ∧
    (handleConfirmDelete true false
        { signals := [ { id := "s1", status := "active", conversation_id := some "c9" },
                       { id := "s2", status := "paused", conversation_id := none } ],
          error := none, deleteConfirmId := some "s1", log := [] }).error = none ∧
    (handleConfirmDelete true false
        { signals := [ { id := "s1", status := "active", conversation_id := some "c9" },
                       { id := "s2", status := "paused", conversation_id := none } ],
          error := none, deleteConfirmId := some "s1", log := [] }).log
      = [] ++ ["Failed to delete associated conversation:"] ∧
    (handleConfirmDelete true false
        { signals := [ { id := "s1", status := "active", conversation_id := some "c9" },
                       { id := "s2", status := "paused", conversation_id := none } ],
          error := none, deleteConfirmId := some "s1", log := [] }).deleteConfirmId = none :=
  cascade_failure_keeps_primary_delete
    { signals := [ { id := "s1", status := "active", conversation_id := some "c9" },
                   { id := "s2", status := "paused", conversation_id := none } ],
      error := none, deleteConfirmId := some "s1", log := [] }
    "s1" { id := "s1", status := "active", conversation_id := some "c9" } "c9"
    rfl rfl rfl

/-- C9: `downloadCSV` is a pure local transform — its browser-step trace
contains no network request, and the delivered artifact's content is
exactly the given CSV string under the name
`<ticker>_backtest_data.csv`. -/
theorem downloadCSV_pure_local (csv ticker : String) :
    (downloadCSV csv ticker).2.content = csv ∧
    (downloadCSV csv ticker).2.name = ticker ++ "_backtest_data.csv" ∧
    (downloadCSV csv ticker).1.filter isNetworkStep = [] :=
  ⟨rfl, rfl, rfl⟩

/-- C10: a stream that completes without error but contributed no content
leaves `assistantText` empty, and the placeholder assistant message is
replaced with the fixed empty-response notice rather than being left
empty; no error is surfaced. -/
theorem empty_stream_yields_fallback_notice (chunks : List String)
    (h : (streamChat chunks).assistantText = "") :
    (handleSendStream (FetchOutcome.ok chunks)).placeholderContent
        = "No response received. Please try again." ∧
    (handleSendStream (FetchOutcome.ok chunks)).errorSlot = none := by
  constructor <;> simp [handleSendStream, h]

/-- Witness for C10: a stream carrying only a `done` event yields the
fixed empty-response notice. -/
theorem empty_stream_yields_fallback_notice_witness :
    (handleSendStream (FetchOutcome.ok
        ["\x7b\"type\":\"done\"\x7d\n"])).placeholderContent
      = "No response received. Please try again." ∧
    (handleSendStream (FetchOutcome.ok ["\x7b\"type\":\"done\"\x7d\n"])).errorSlot = none :=
  empty_stream_yields_fallback_notice ["\x7b\"type\":\"done\"\x7d\n"] rfl

end Backtestbaby
